import Mathlib

set_option maxRecDepth 100000

/-!
Verification of the `pkg/utils` helper package (hashing, secret redaction,
retry classification, membership search) against its specification.

All machine integers are modelled as `Nat` with explicit `% 2^32` / `% 2^64`
reductions where Go's fixed-width arithmetic wraps.  Fallible or panicking
code paths are modelled with `Option`.
-/

/-! ## Bytes, hex rendering -/

/-- Lowercase hexadecimal digits, as used by Go's `%x` formatting verb. -/
def hexChars : List Char := "0123456789abcdef".data

/-- The hex digit for a value; total via `% 16`. -/
def hexDigit (d : Nat) : Char := hexChars.getD (d % 16) '0'

/-- Go's `%x` renders each byte as exactly two lowercase hex digits. -/
def byteHexChars (b : Nat) : List Char := [hexDigit (b / 16), hexDigit b]

/-- Rendering of a byte slice by `fmt.Sprintf("%x", ...)`: two lowercase
hex digits per byte. -/
def bytesToHex (l : List Nat) : String := String.mk (l.flatMap byteHexChars)

/-- Whether a character is a lowercase hexadecimal digit. -/
def isHexCharB (c : Char) : Bool := hexChars.contains c

/-- Whether every character of a string is a lowercase hexadecimal digit. -/
def isLowerHexStr (s : String) : Bool := s.data.all isHexCharB

/-- UTF-8 encoding of a single code point (the bytes Go appends for a rune). -/
def utf8Encode (c : Char) : List Nat :=
  let n := c.toNat
  if n < 0x80 then [n]
  else if n < 0x800 then
    [0xC0 + n / 0x40, 0x80 + n % 0x40]
  else if n < 0x10000 then
    [0xE0 + n / 0x1000, 0x80 + n / 0x40 % 0x40, 0x80 + n % 0x40]
  else
    [0xF0 + n / 0x40000, 0x80 + n / 0x1000 % 0x40,
     0x80 + n / 0x40 % 0x40, 0x80 + n % 0x40]

/-- The byte sequence of a Go string: Go strings are UTF-8, and `[]byte(s)`
yields exactly the UTF-8 bytes of the code points. -/
def strBytes (s : String) : List Nat := s.data.flatMap utf8Encode

/-! ## Word utilities (32-bit and 64-bit wrapping arithmetic on `Nat`) -/

/-- Left-rotation of a 32-bit word. -/
def rotl32 (x n : Nat) : Nat :=
  (((x % 2 ^ 32) <<< n) ||| ((x % 2 ^ 32) >>> (32 - n))) % 2 ^ 32

/-- Right-rotation of a 32-bit word. -/
def rotr32 (x n : Nat) : Nat :=
  (((x % 2 ^ 32) >>> n) ||| ((x % 2 ^ 32) <<< (32 - n))) % 2 ^ 32

/-- Right-rotation of a 64-bit word. -/
def rotr64 (x n : Nat) : Nat :=
  (((x % 2 ^ 64) >>> n) ||| ((x % 2 ^ 64) <<< (64 - n))) % 2 ^ 64

/-- Chunk splitting with explicit fuel (structurally recursive, so concrete
instances reduce inside the kernel); each step consumes at least one
element when `n ≥ 1`, so fuel `l.length` always suffices. -/
def chunksAux (n : Nat) : Nat → List Nat → List (List Nat)
  | 0, _ => []
  | _, [] => []
  | fuel + 1, a :: rest => (a :: rest).take n :: chunksAux n fuel ((a :: rest).drop n)

/-- Split a list into consecutive chunks of `n` elements (`n ≥ 1` intended). -/
def chunksOf (n : Nat) (l : List Nat) : List (List Nat) := chunksAux n l.length l

/-- Big-endian value of a byte list. -/
def beVal (l : List Nat) : Nat := l.foldl (fun acc b => acc * 256 + b) 0

/-- 32-bit words of a block, little-endian bytes (MD5). -/
def wordsLE (block : List Nat) : List Nat :=
  (chunksOf 4 block).map (fun c => beVal c.reverse)

/-- 32-bit words of a block, big-endian bytes (SHA-1, SHA-256). -/
def wordsBE (block : List Nat) : List Nat := (chunksOf 4 block).map beVal

/-- 64-bit words of a block, big-endian bytes (SHA-512). -/
def words64BE (block : List Nat) : List Nat := (chunksOf 8 block).map beVal

/-- The 4 bytes of a 32-bit word, little-endian. -/
def le32 (w : Nat) : List Nat :=
  [w % 256, w / 2 ^ 8 % 256, w / 2 ^ 16 % 256, w / 2 ^ 24 % 256]

/-- The 4 bytes of a 32-bit word, big-endian. -/
def be32 (w : Nat) : List Nat :=
  [w / 2 ^ 24 % 256, w / 2 ^ 16 % 256, w / 2 ^ 8 % 256, w % 256]

/-- The 8 bytes of a 64-bit word, little-endian. -/
def le64 (w : Nat) : List Nat :=
  [w % 256, w / 2 ^ 8 % 256, w / 2 ^ 16 % 256, w / 2 ^ 24 % 256,
   w / 2 ^ 32 % 256, w / 2 ^ 40 % 256, w / 2 ^ 48 % 256, w / 2 ^ 56 % 256]

/-- The 8 bytes of a 64-bit word, big-endian. -/
def be64 (w : Nat) : List Nat :=
  [w / 2 ^ 56 % 256, w / 2 ^ 48 % 256, w / 2 ^ 40 % 256, w / 2 ^ 32 % 256,
   w / 2 ^ 24 % 256, w / 2 ^ 16 % 256, w / 2 ^ 8 % 256, w % 256]

/-- The 16 bytes of a 128-bit value, big-endian (SHA-512 length field). -/
def be128 (w : Nat) : List Nat := be64 (w / 2 ^ 64) ++ be64 w

/-- Merkle–Damgård padding for 64-byte blocks with a little-endian 64-bit
bit-length field (MD5). -/
def pad64LE (m : List Nat) : List Nat :=
  m ++ 0x80 :: List.replicate ((64 - (m.length + 9) % 64) % 64) 0
    ++ le64 (8 * m.length)

/-- Merkle–Damgård padding for 64-byte blocks with a big-endian 64-bit
bit-length field (SHA-1, SHA-256). -/
def pad64BE (m : List Nat) : List Nat :=
  m ++ 0x80 :: List.replicate ((64 - (m.length + 9) % 64) % 64) 0
    ++ be64 (8 * m.length)

/-- Merkle–Damgård padding for 128-byte blocks with a big-endian 128-bit
bit-length field (SHA-512). -/
def pad128BE (m : List Nat) : List Nat :=
  m ++ 0x80 :: List.replicate ((128 - (m.length + 17) % 128) % 128) 0
    ++ be128 (8 * m.length)

/-! ## MD5 (RFC 1321), the digest behind `crypto.MD5` -/

/-- MD5 working state: four 32-bit registers. -/
structure MD5State where
  a : Nat
  b : Nat
  c : Nat
  d : Nat

/-- MD5 sine-derived round constants `K[0..63]`. -/
def md5K : List Nat :=
  [0xd76aa478, 0xe8c7b756, 0x242070db, 0xc1bdceee,
   0xf57c0faf, 0x4787c62a, 0xa8304613, 0xfd469501,
   0x698098d8, 0x8b44f7af, 0xffff5bb1, 0x895cd7be,
   0x6b901122, 0xfd987193, 0xa679438e, 0x49b40821,
   0xf61e2562, 0xc040b340, 0x265e5a51, 0xe9b6c7aa,
   0xd62f105d, 0x02441453, 0xd8a1e681, 0xe7d3fbc8,
   0x21e1cde6, 0xc33707d6, 0xf4d50d87, 0x455a14ed,
   0xa9e3e905, 0xfcefa3f8, 0x676f02d9, 0x8d2a4c8a,
   0xfffa3942, 0x8771f681, 0x6d9d6122, 0xfde5380c,
   0xa4beea44, 0x4bdecfa9, 0xf6bb4b60, 0xbebfbc70,
   0x289b7ec6, 0xeaa127fa, 0xd4ef3085, 0x04881d05,
   0xd9d4d039, 0xe6db99e5, 0x1fa27cf8, 0xc4ac5665,
   0xf4292244, 0x432aff97, 0xab9423a7, 0xfc93a039,
   0x655b59c3, 0x8f0ccc92, 0xffeff47d, 0x85845dd1,
   0x6fa87e4f, 0xfe2ce6e0, 0xa3014314, 0x4e0811a1,
   0xf7537e82, 0xbd3af235, 0x2ad7d2bb, 0xeb86d391]

/-- MD5 per-round left-rotation amounts `s[0..63]`. -/
def md5S : List Nat :=
  [7, 12, 17, 22, 7, 12, 17, 22, 7, 12, 17, 22, 7, 12, 17, 22,
   5, 9, 14, 20, 5, 9, 14, 20, 5, 9, 14, 20, 5, 9, 14, 20,
   4, 11, 16, 23, 4, 11, 16, 23, 4, 11, 16, 23, 4, 11, 16, 23,
   6, 10, 15, 21, 6, 10, 15, 21, 6, 10, 15, 21, 6, 10, 15, 21]

/-- MD5 round function and message index for round `i`. -/
def md5FG (i b c d : Nat) : Nat × Nat :=
  if i < 16 then ((b &&& c) ||| ((b ^^^ 0xffffffff) &&& d), i)
  else if i < 32 then ((d &&& b) ||| ((d ^^^ 0xffffffff) &&& c), (5 * i + 1) % 16)
  else if i < 48 then (b ^^^ c ^^^ d, (3 * i + 5) % 16)
  else (c ^^^ (b ||| (d ^^^ 0xffffffff)), (7 * i) % 16)

/-- One MD5 round over message words `m`. -/
def md5Step (m : List Nat) (st : MD5State) (i : Nat) : MD5State :=
  let fg := md5FG i st.b st.c st.d
  let t := (fg.1 + st.a + md5K.getD i 0 + m.getD fg.2 0) % 2 ^ 32
  ⟨st.d, (st.b + rotl32 t (md5S.getD i 0)) % 2 ^ 32, st.b, st.c⟩

/-- MD5 compression of one 64-byte block. -/
def md5Compress (st : MD5State) (block : List Nat) : MD5State :=
  let m := wordsLE block
  let r := (List.range 64).foldl (md5Step m) st
  ⟨(st.a + r.a) % 2 ^ 32, (st.b + r.b) % 2 ^ 32,
   (st.c + r.c) % 2 ^ 32, (st.d + r.d) % 2 ^ 32⟩

/-- The 16-byte MD5 digest of a byte sequence. -/
def md5Bytes (msg : List Nat) : List Nat :=
  let st := (chunksOf 64 (pad64LE msg)).foldl md5Compress
    ⟨0x67452301, 0xefcdab89, 0x98badcfe, 0x10325476⟩
  le32 st.a ++ le32 st.b ++ le32 st.c ++ le32 st.d

/-! ## SHA-1 (FIPS 180-4), the digest behind `crypto.SHA1` -/

/-- SHA-1 working state: five 32-bit registers. -/
structure SHA1State where
  h0 : Nat
  h1 : Nat
  h2 : Nat
  h3 : Nat
  h4 : Nat

/-- SHA-1 message schedule `W[0..79]` for one block. -/
def sha1W (m : List Nat) : List Nat :=
  (List.range 80).foldl
    (fun w t =>
      if t < 16 then w ++ [m.getD t 0]
      else w ++ [rotl32 (w.getD (t - 3) 0 ^^^ w.getD (t - 8) 0 ^^^
                         w.getD (t - 14) 0 ^^^ w.getD (t - 16) 0) 1]) []

/-- SHA-1 round function and constant for round `t`. -/
def sha1FK (t b c d : Nat) : Nat × Nat :=
  if t < 20 then ((b &&& c) ||| ((b ^^^ 0xffffffff) &&& d), 0x5a827999)
  else if t < 40 then (b ^^^ c ^^^ d, 0x6ed9eba1)
  else if t < 60 then ((b &&& c) ||| (b &&& d) ||| (c &&& d), 0x8f1bbcdc)
  else (b ^^^ c ^^^ d, 0xca62c1d6)

/-- One SHA-1 round over schedule `w`. -/
def sha1Step (w : List Nat) (st : SHA1State) (t : Nat) : SHA1State :=
  let fk := sha1FK t st.h1 st.h2 st.h3
  let temp := (rotl32 st.h0 5 + fk.1 + st.h4 + fk.2 + w.getD t 0) % 2 ^ 32
  ⟨temp, st.h0, rotl32 st.h1 30, st.h2, st.h3⟩

/-- SHA-1 compression of one 64-byte block. -/
def sha1Compress (st : SHA1State) (block : List Nat) : SHA1State :=
  let w := sha1W (wordsBE block)
  let r := (List.range 80).foldl (sha1Step w) st
  ⟨(st.h0 + r.h0) % 2 ^ 32, (st.h1 + r.h1) % 2 ^ 32, (st.h2 + r.h2) % 2 ^ 32,
   (st.h3 + r.h3) % 2 ^ 32, (st.h4 + r.h4) % 2 ^ 32⟩

/-- The 20-byte SHA-1 digest of a byte sequence. -/
def sha1Bytes (msg : List Nat) : List Nat :=
  let st := (chunksOf 64 (pad64BE msg)).foldl sha1Compress
    ⟨0x67452301, 0xefcdab89, 0x98badcfe, 0x10325476, 0xc3d2e1f0⟩
  be32 st.h0 ++ be32 st.h1 ++ be32 st.h2 ++ be32 st.h3 ++ be32 st.h4

/-! ## SHA-256 (FIPS 180-4), the digest behind `crypto.SHA256` -/

/-- Working state shared by SHA-256 and SHA-512: eight registers. -/
structure SHA2State where
  a : Nat
  b : Nat
  c : Nat
  d : Nat
  e : Nat
  f : Nat
  g : Nat
  h : Nat

/-- SHA-256 round constants `K[0..63]` (decimal rendering of the FIPS 180-4
table). -/
def sha256K : List Nat :=
  [1116352408, 1899447441, 3049323471, 3921009573,
   961987163, 1508970993, 2453635748, 2870763221,
   3624381080, 310598401, 607225278, 1426881987,
   1925078388, 2162078206, 2614888103, 3248222580,
   3835390401, 4022224774, 264347078, 604807628,
   770255983, 1249150122, 1555081692, 1996064986,
   2554220882, 2821834349, 2952996808, 3210313671,
   3336571891, 3584528711, 113926993, 338241895,
   666307205, 773529912, 1294757372, 1396182291,
   1695183700, 1986661051, 2177026350, 2456956037,
   2730485921, 2820302411, 3259730800, 3345764771,
   3516065817, 3600352804, 4094571909, 275423344,
   430227734, 506948616, 659060556, 883997877,
   958139571, 1322822218, 1537002063, 1747873779,
   1955562222, 2024104815, 2227730452, 2361852424,
   2428436474, 2756734187, 3204031479, 3329325298]

/-- SHA-256 message schedule `W[0..63]` for one block. -/
def sha256W (m : List Nat) : List Nat :=
  (List.range 64).foldl
    (fun w t =>
      if t < 16 then w ++ [m.getD t 0]
      else
        let s0 := rotr32 (w.getD (t - 15) 0) 7 ^^^ rotr32 (w.getD (t - 15) 0) 18 ^^^
          (w.getD (t - 15) 0 >>> 3)
        let s1 := rotr32 (w.getD (t - 2) 0) 17 ^^^ rotr32 (w.getD (t - 2) 0) 19 ^^^
          (w.getD (t - 2) 0 >>> 10)
        w ++ [(w.getD (t - 16) 0 + s0 + w.getD (t - 7) 0 + s1) % 2 ^ 32]) []

/-- One SHA-256 round over schedule `w`. -/
def sha256Step (w : List Nat) (st : SHA2State) (t : Nat) : SHA2State :=
  let S1 := rotr32 st.e 6 ^^^ rotr32 st.e 11 ^^^ rotr32 st.e 25
  let ch := (st.e &&& st.f) ^^^ ((st.e ^^^ 0xffffffff) &&& st.g)
  let temp1 := (st.h + S1 + ch + sha256K.getD t 0 + w.getD t 0) % 2 ^ 32
  let S0 := rotr32 st.a 2 ^^^ rotr32 st.a 13 ^^^ rotr32 st.a 22
  let maj := (st.a &&& st.b) ^^^ (st.a &&& st.c) ^^^ (st.b &&& st.c)
  let temp2 := (S0 + maj) % 2 ^ 32
  ⟨(temp1 + temp2) % 2 ^ 32, st.a, st.b, st.c,
   (st.d + temp1) % 2 ^ 32, st.e, st.f, st.g⟩

/-- SHA-256 compression of one 64-byte block. -/
def sha256Compress (st : SHA2State) (block : List Nat) : SHA2State :=
  let w := sha256W (wordsBE block)
  let r := (List.range 64).foldl (sha256Step w) st
  ⟨(st.a + r.a) % 2 ^ 32, (st.b + r.b) % 2 ^ 32, (st.c + r.c) % 2 ^ 32,
   (st.d + r.d) % 2 ^ 32, (st.e + r.e) % 2 ^ 32, (st.f + r.f) % 2 ^ 32,
   (st.g + r.g) % 2 ^ 32, (st.h + r.h) % 2 ^ 32⟩

/-- The 32-byte SHA-256 digest of a byte sequence. -/
def sha256Bytes (msg : List Nat) : List Nat :=
  let st := (chunksOf 64 (pad64BE msg)).foldl sha256Compress
    ⟨1779033703, 3144134277, 1013904242, 2773480762,
     1359893119, 2600822924, 528734635, 1541459225⟩
  be32 st.a ++ be32 st.b ++ be32 st.c ++ be32 st.d ++
    be32 st.e ++ be32 st.f ++ be32 st.g ++ be32 st.h

/-! ## SHA-512 (FIPS 180-4), the digest behind `crypto.SHA512` -/

/-- SHA-512 round constants `K[0..79]` (decimal rendering of the FIPS 180-4
table). -/
def sha512K : List Nat :=
  [4794697086780616226, 8158064640168781261, 13096744586834688815,
   16840607885511220156, 4131703408338449720, 6480981068601479193,
   10538285296894168987, 12329834152419229976, 15566598209576043074,
   1334009975649890238, 2608012711638119052, 6128411473006802146,
   8268148722764581231, 9286055187155687089, 11230858885718282805,
   13951009754708518548, 16472876342353939154, 17275323862435702243,
   1135362057144423861, 2597628984639134821, 3308224258029322869,
   5365058923640841347, 6679025012923562964, 8573033837759648693,
   10970295158949994411, 12119686244451234320, 12683024718118986047,
   13788192230050041572, 14330467153632333762, 15395433587784984357,
   489312712824947311, 1452737877330783856, 2861767655752347644,
   3322285676063803686, 5560940570517711597, 5996557281743188959,
   7280758554555802590, 8532644243296465576, 9350256976987008742,
   10552545826968843579, 11727347734174303076, 12113106623233404929,
   14000437183269869457, 14369950271660146224, 15101387698204529176,
   15463397548674623760, 17586052441742319658, 1182934255886127544,
   1847814050463011016, 2177327727835720531, 2830643537854262169,
   3796741975233480872, 4115178125766777443, 5681478168544905931,
   6601373596472566643, 7507060721942968483, 8399075790359081724,
   8693463985226723168, 9568029438360202098, 10144078919501101548,
   10430055236837252648, 11840083180663258601, 13761210420658862357,
   14299343276471374635, 14566680578165727644, 15097957966210449927,
   16922976911328602910, 17689382322260857208, 500013540394364858,
   748580250866718886, 1242879168328830382, 1977374033974150939,
   2944078676154940804, 3659926193048069267, 4368137639120453308,
   4836135668995329356, 5532061633213252278, 6448918945643986474,
   6902733635092675308, 7801388544844847127]

/-- SHA-512 message schedule `W[0..79]` for one block. -/
def sha512W (m : List Nat) : List Nat :=
  (List.range 80).foldl
    (fun w t =>
      if t < 16 then w ++ [m.getD t 0]
      else
        let s0 := rotr64 (w.getD (t - 15) 0) 1 ^^^ rotr64 (w.getD (t - 15) 0) 8 ^^^
          (w.getD (t - 15) 0 >>> 7)
        let s1 := rotr64 (w.getD (t - 2) 0) 19 ^^^ rotr64 (w.getD (t - 2) 0) 61 ^^^
          (w.getD (t - 2) 0 >>> 6)
        w ++ [(w.getD (t - 16) 0 + s0 + w.getD (t - 7) 0 + s1) % 2 ^ 64]) []

/-- One SHA-512 round over schedule `w`. -/
def sha512Step (w : List Nat) (st : SHA2State) (t : Nat) : SHA2State :=
  let S1 := rotr64 st.e 14 ^^^ rotr64 st.e 18 ^^^ rotr64 st.e 41
  let ch := (st.e &&& st.f) ^^^ ((st.e ^^^ 0xffffffffffffffff) &&& st.g)
  let temp1 := (st.h + S1 + ch + sha512K.getD t 0 + w.getD t 0) % 2 ^ 64
  let S0 := rotr64 st.a 28 ^^^ rotr64 st.a 34 ^^^ rotr64 st.a 39
  let maj := (st.a &&& st.b) ^^^ (st.a &&& st.c) ^^^ (st.b &&& st.c)
  let temp2 := (S0 + maj) % 2 ^ 64
  ⟨(temp1 + temp2) % 2 ^ 64, st.a, st.b, st.c,
   (st.d + temp1) % 2 ^ 64, st.e, st.f, st.g⟩

/-- SHA-512 compression of one 128-byte block. -/
def sha512Compress (st : SHA2State) (block : List Nat) : SHA2State :=
  let w := sha512W (words64BE block)
  let r := (List.range 80).foldl (sha512Step w) st
  ⟨(st.a + r.a) % 2 ^ 64, (st.b + r.b) % 2 ^ 64, (st.c + r.c) % 2 ^ 64,
   (st.d + r.d) % 2 ^ 64, (st.e + r.e) % 2 ^ 64, (st.f + r.f) % 2 ^ 64,
   (st.g + r.g) % 2 ^ 64, (st.h + r.h) % 2 ^ 64⟩

/-- The 64-byte SHA-512 digest of a byte sequence. -/
def sha512Bytes (msg : List Nat) : List Nat :=
  let st := (chunksOf 128 (pad128BE msg)).foldl sha512Compress
    ⟨7640891576956012808, 13503953896175478587, 4354685564936845355,
     11912009170470909681, 5840696475078001361, 11170449401992604703,
     2270897969802886507, 6620516959819538809⟩
  be64 st.a ++ be64 st.b ++ be64 st.c ++ be64 st.d ++
    be64 st.e ++ be64 st.f ++ be64 st.g ++ be64 st.h

/-! ## The `Hash` function of `pkg/utils/utils.go` -/

/-- Algorithm selectors of Go's `crypto.Hash` that are relevant here: the
four the source's `switch` matches, plus representative unmatched ones. -/
inductive CryptoHash where
  | MD4
  | MD5
  | SHA1
  | SHA224
  | SHA256
  | SHA384
  | SHA512
  | otherAlg (n : Nat)
deriving DecidableEq

/-- Embedding of `utils.Hash`.  The source switches on the selector, setting
the handle `h` for `MD5`, `SHA1`, `SHA256` and `SHA512`; on any other
selector the `default:` case leaves `h` nil and the subsequent `h.Write`
is a nil-interface method call, i.e. a runtime panic — modelled as `none`
(no string is ever returned on that path). -/
def HashGo (s : String) (f : CryptoHash) : Option String :=
  match f with
  | .MD5 => some (bytesToHex (md5Bytes (strBytes s)))
  | .SHA1 => some (bytesToHex (sha1Bytes (strBytes s)))
  | .SHA256 => some (bytesToHex (sha256Bytes (strBytes s)))
  | .SHA512 => some (bytesToHex (sha512Bytes (strBytes s)))
  | _ => none

/-! ## The `HashFNV` function -/

/-- 64-bit FNV-1a over a byte sequence, as `fnv.New64a` + `Write` compute it:
start from the offset basis, and for each byte xor it in and multiply by the
FNV prime, wrapping at 64 bits. -/
def fnv64a (bytes : List Nat) : Nat :=
  bytes.foldl (fun h b => ((h ^^^ b) * 1099511628211) % 2 ^ 64)
    14695981039346656037

/-- Go's integer-to-string conversion `string(n)`: the UTF-8 encoding of the
code point `n`, or the replacement character `"�"` when `n` is not a
valid code point (surrogate or above `0x10FFFF`). -/
def goRuneString (n : Nat) : String :=
  if n < 0xd800 ∨ (0xdfff < n ∧ n < 0x110000) then
    String.mk [Char.ofNat n]
  else "�"

/-- Embedding of `utils.HashFNV`: `string(h.Sum64())` converts the 64-bit
hash value with Go's integer-to-string conversion (a rune, not a decimal or
hex rendering). -/
def hashFNVGo (s : String) : String := goRuneString (fnv64a (strBytes s))

/-! ## The `RandToken` function -/

/-- Embedding of `utils.RandToken`.  The source allocates a zeroed 16-byte
buffer, calls `crypto/rand.Read` on it and discards both results with
`_, _ = rand.Read(b)`; `entropy` is whatever prefix the reader managed to
fill and `err` is the discarded error flag — the body never consults it,
exactly as the source never consults the error. -/
def randTokenGo (entropy : List Nat) ( _err : Bool) : String :=
  let b := (entropy.map (fun x => x % 256)).take 16
  bytesToHex (b ++ List.replicate (16 - b.length) 0)

/-! ## The `Secret` type and its marshalers -/

/-- `utils.Secret` is a defined string type. -/
abbrev Secret : Type := String

/-- Embedding of `Secret.MarshalYAML`: the redaction marker for a non-empty
secret, the nil interface value (absent marker, `none`) otherwise.  The
error result is always nil in the source, so only the value is modelled. -/
def secretMarshalYAML (s : Secret) : Option String :=
  if (s : String) ≠ "" then some "<secret>" else none

/-- Embedding of `Secret.MarshalJSON`: the byte literal `"<secret>"`
(rendered here as the string including its quotes) for a non-empty secret,
nil bytes (`none`) otherwise.  The error result is always nil. -/
def secretMarshalJSON (s : Secret) : Option String :=
  if (s : String) ≠ "" then some "\"<secret>\"" else none

/-! ## The `RetryableError` function -/

/-- OS-level error numbers (`syscall.Errno`) relevant to the classifier. -/
inductive Errno where
  | ECONNREFUSED
  | ETIMEDOUT
  | EAGAIN
  | EWOULDBLOCK
  | EPIPE
  | otherNo (n : Nat)
deriving DecidableEq

/-- `syscall.Errno.Timeout()`: true exactly for `EAGAIN`, `EWOULDBLOCK`
and `ETIMEDOUT`. -/
def errnoTimeout : Errno → Bool
  | .EAGAIN => true
  | .EWOULDBLOCK => true
  | .ETIMEDOUT => true
  | _ => false

/-- The shapes an `error` value passed to `utils.RetryableError` can take:
a `*net.OpError` carrying an operation tag and optionally a wrapped
`syscall.Errno`, a bare `syscall.Errno`, some other error value (which may
or may not implement `net.Error`, with the given `Timeout()` answer), or
the nil error. -/
inductive NetError where
  | opErr (op : String) (inner : Option Errno)
  | errno (e : Errno)
  | generic (isNet : Bool) (timeoutAns : Bool)
  | nilErr

/-- Whether the value satisfies the type assertion `err.(net.Error)`:
`*net.OpError` and `syscall.Errno` both implement `net.Error`; a nil
error never satisfies an interface type assertion. -/
def isNetErrorB : NetError → Bool
  | .opErr _ _ => true
  | .errno _ => true
  | .generic isNet _ => isNet
  | .nilErr => false

/-- The `Timeout()` answer of the value: `(*net.OpError).Timeout()`
delegates to the wrapped error when that implements the timeout interface
(false when there is none), `syscall.Errno.Timeout()` is `errnoTimeout`. -/
def timeoutB : NetError → Bool
  | .opErr _ inner => (inner.map errnoTimeout).getD false
  | .errno e => errnoTimeout e
  | .generic _ t => t
  | .nilErr => false

/-- Embedding of `utils.RetryableError`: first the `net.Error` timeout
check, then a type switch — for `*net.OpError` return false on `"dial"`,
true on `"read"`, otherwise fall through; for a bare `syscall.Errno`
return true on `ECONNREFUSED`; every unmatched shape reaches the final
`return false`. -/
def retryableError (e : NetError) : Bool :=
  if isNetErrorB e && timeoutB e then true
  else
    match e with
    | .opErr op _ =>
        if op = "dial" then false
        else if op = "read" then true
        else false
    | .errno er => if er = .ECONNREFUSED then true else false
    | _ => false

/-- The operation-kind tag the failure carries, when it carries one:
only `*net.OpError` has an `Op` field. -/
def opKind : NetError → Option String
  | .opErr op _ => some op
  | _ => none

/-- The OS-level error code the failure carries, when it carries one. -/
def errCode : NetError → Option Errno
  | .opErr _ inner => inner
  | .errno e => some e
  | _ => none

/-! ## The `Find` function -/

/-- The two runtime shapes `Find`'s reflective `switch` distinguishes for
its `interface{}` argument: a plain string or a slice of strings. -/
inductive FindArg where
  | str (s : String)
  | slice (l : List String)

/-- The `reflect.String` arm of `Find`: scan `a`, set the result on the
first element equal to `x` and break. -/
def findStr : List String → String → Bool
  | [], _ => false
  | n :: rest, x => if x == n then true else findStr rest x

/-- ASCII lowercase mapping of a string, character by character, as
`strings.ToLower` computes it for the ASCII operator strings compared
against `"or"` here. -/
def goToLower (s : String) : String := String.mk (s.data.map Char.toLower)

/-- The `reflect.Slice` arm of `Find`: each iteration overwrites `r` with
the membership result of the current element; when the operator is
(case-insensitively) `"or"` the loop breaks on the first true result,
otherwise it runs to the end. -/
def findLoop (a : List String) (op : String) : List String → Bool → Bool
  | [], r => r
  | s :: rest, _ =>
      let r2 := findStr a s
      if (goToLower op == "or") && r2 then r2 else findLoop a op rest r2

/-- Embedding of `utils.Find`. -/
def find (a : List String) (x : FindArg) (op : String) : Bool :=
  match x with
  | .str s => findStr a s
  | .slice l => findLoop a op l false

/-! ## Helper lemmas -/

lemma hexDigit_isHex (d : Nat) : isHexCharB (hexDigit d) = true := by
  have h : d % 16 < 16 := Nat.mod_lt _ (by norm_num)
  unfold hexDigit isHexCharB
  set m := d % 16 with hm
  interval_cases m <;> decide

lemma byteHexChars_all (b : Nat) : (byteHexChars b).all isHexCharB = true := by
  simp [byteHexChars, List.all_cons, hexDigit_isHex]

lemma byteHexChars_length (b : Nat) : (byteHexChars b).length = 2 := rfl

lemma flatMapHex_length (l : List Nat) :
    (l.flatMap byteHexChars).length = 2 * l.length := by
  induction l with
  | nil => rfl
  | cons b rest ih =>
      simp [List.flatMap_cons, ih, byteHexChars_length]
      omega

lemma bytesToHex_length (l : List Nat) :
    (bytesToHex l).length = 2 * l.length := by
  show (l.flatMap byteHexChars).length = 2 * l.length
  exact flatMapHex_length l

lemma bytesToHex_isLowerHex (l : List Nat) :
    isLowerHexStr (bytesToHex l) = true := by
  show (l.flatMap byteHexChars).all isHexCharB = true
  induction l with
  | nil => rfl
  | cons b rest ih =>
      simp only [List.flatMap_cons, List.all_append, ih, byteHexChars_all,
        Bool.and_true]

lemma md5Bytes_length (m : List Nat) : (md5Bytes m).length = 16 := by
  simp [md5Bytes, le32]

lemma sha1Bytes_length (m : List Nat) : (sha1Bytes m).length = 20 := by
  simp [sha1Bytes, be32]

lemma sha256Bytes_length (m : List Nat) : (sha256Bytes m).length = 32 := by
  simp [sha256Bytes, be32]

lemma sha512Bytes_length (m : List Nat) : (sha512Bytes m).length = 64 := by
  simp [sha512Bytes, be64]

lemma findStr_iff (a : List String) (x : String) :
    findStr a x = true ↔ x ∈ a := by
  induction a with
  | nil => simp [findStr]
  | cons n rest ih =>
      simp only [findStr, List.mem_cons]
      by_cases h : x = n
      · simp [h]
      · simp [h, ih, beq_eq_false_iff_ne.mpr h]

lemma findLoop_cons (a : List String) (op s : String) (rest : List String)
    (r : Bool) :
    findLoop a op (s :: rest) r =
      if (goToLower op == "or") && findStr a s then findStr a s
      else findLoop a op rest (findStr a s) := rfl

lemma findLoop_last (a : List String) (op : String)
    (hop : (goToLower op == "or") = false) :
    ∀ (l : List String) (hl : l ≠ []) (r : Bool),
      findLoop a op l r = findStr a (l.getLast hl) := by
  intro l
  induction l with
  | nil => intro hl; exact absurd rfl hl
  | cons s rest ih =>
      intro _ r
      rw [findLoop_cons, hop]
      rw [if_neg (by simp)]
      cases rest with
      | nil => rfl
      | cons s2 rest2 =>
          rw [ih (by simp)]
          congr 1

/-! ## Claim theorems -/

/-- C1: the claim states that `Hash` fails with an explicit
`UnsupportedAlgorithm` error on every selector outside
{MD5, SHA1, SHA256, SHA512} rather than silently defaulting or crashing.
The source instead leaves the hash handle nil in the `default:` case of its
switch and then calls `h.Write`, a nil-interface method call that panics at
runtime: the embedded function produces no result (`none`, the panic path)
and in particular no error value, so the code crashes where the specified
behavior is an explicit error — the defect the spec itself flags. -/
theorem c1_hash_unsupported_panics :
    HashGo "faythe" CryptoHash.SHA384 = none ∧
    HashGo "faythe" CryptoHash.MD4 = none ∧
    HashGo "faythe" (CryptoHash.otherAlg 19) = none ∧
    HashGo "" CryptoHash.SHA224 = none :=
  ⟨rfl, rfl, rfl, rfl⟩

/-- C2: the claim states that `HashFNV` renders the 64-bit FNV-1a hash of
the input as a fixed-width fingerprint.  The source converts the hash with
Go's integer-to-string conversion `string(h.Sum64())`, which yields the
single rune whose code point is that integer — the replacement character
`�` for every value at or above 0x110000 — so the distinct 64-bit hashes of
`"a"` and `"b"` collapse to the identical three-byte string: the output is
not a rendering of the 64-bit hash at all, contradicting both the claim and
the source's own doc comment ("generates a new 64-bit number"). -/
theorem c2_hashFNV_collapses :
    hashFNVGo "a" = hashFNVGo "b" ∧
    fnv64a (strBytes "a") ≠ fnv64a (strBytes "b") ∧
    hashFNVGo "a" = "�" :=
  ⟨rfl, by decide, rfl⟩

/-- C3: for every input string and each of the four supported cryptographic
selectors, `Hash` returns the digest of the UTF-8 bytes of the input
rendered as lowercase hexadecimal with the fixed lengths 32/40/64/128;
determinism is inherent in the functional embedding (the result depends
only on the arguments).  The closed conjuncts pin the embedded digests to
the standard algorithms via the RFC 1321 / FIPS 180-4 test vectors. -/
theorem c3_hash_supported_spec (s : String) :
    HashGo s CryptoHash.MD5 = some (bytesToHex (md5Bytes (strBytes s))) ∧
    Option.map String.length (HashGo s CryptoHash.MD5) = some 32 ∧
    Option.map isLowerHexStr (HashGo s CryptoHash.MD5) = some true ∧
    HashGo s CryptoHash.SHA1 = some (bytesToHex (sha1Bytes (strBytes s))) ∧
    Option.map String.length (HashGo s CryptoHash.SHA1) = some 40 ∧
    Option.map isLowerHexStr (HashGo s CryptoHash.SHA1) = some true ∧
    HashGo s CryptoHash.SHA256 = some (bytesToHex (sha256Bytes (strBytes s))) ∧
    Option.map String.length (HashGo s CryptoHash.SHA256) = some 64 ∧
    Option.map isLowerHexStr (HashGo s CryptoHash.SHA256) = some true ∧
    HashGo s CryptoHash.SHA512 = some (bytesToHex (sha512Bytes (strBytes s))) ∧
    Option.map String.length (HashGo s CryptoHash.SHA512) = some 128 ∧
    Option.map isLowerHexStr (HashGo s CryptoHash.SHA512) = some true ∧
    HashGo "abc" CryptoHash.MD5 = some "900150983cd24fb0d6963f7d28e17f72" ∧
    HashGo "abc" CryptoHash.SHA1 =
      some "a9993e364706816aba3e25717850c26c9cd0d89d" ∧
    HashGo "" CryptoHash.SHA256 =
      some "e3b0c44298fc1c149afbf4c8996fb92427ae41e4649b934ca495991b7852b855" ∧
    HashGo "abc" CryptoHash.SHA512 =
      some "ddaf35a193617abacc417349ae20413112e6fa4e89a97ea20a9eeee64b55d39a2192992a274fc1a836ba3c23a3feebbd454d4423643ce80e2a9ac94fa54ca49f" := by
  refine ⟨rfl, ?_, ?_, rfl, ?_, ?_, rfl, ?_, ?_, rfl, ?_, ?_,
      by decide, by decide, by decide, by decide⟩ <;>
    simp [HashGo, bytesToHex_length, bytesToHex_isLowerHex, md5Bytes_length,
      sha1Bytes_length, sha256Bytes_length, sha512Bytes_length]

/-- C4: the length half of the claim holds — the token is always the
32-lowercase-hex-character rendering of the 16-byte buffer — but the source
discards the error of `crypto/rand.Read` with `_, _ = rand.Read(b)`: when
the entropy source fails (error flag set, no bytes read) the function still
returns the hex of the zero-filled buffer instead of surfacing a fatal
error to the caller. -/
theorem c4_randToken_ignores_entropy_failure (entropy : List Nat) :
    (randTokenGo entropy true).length = 32 ∧
    isLowerHexStr (randTokenGo entropy true) = true ∧
    randTokenGo [] true = "00000000000000000000000000000000" := by
  refine ⟨?_, ?_, rfl⟩
  · unfold randTokenGo
    rw [bytesToHex_length]
    simp [List.length_take]
  · exact bytesToHex_isLowerHex _

/-- C5: both serialization hooks of `Secret` return the absent marker
(`none`, the nil value / nil byte slice) when the wrapped string is empty
and the literal redaction marker otherwise (the JSON hook emits the marker
in its JSON-encoded form, quotes included); the output of a non-empty
secret does not depend on the wrapped bytes, so any two non-empty secrets
serialize identically and no path emits the underlying bytes. -/
theorem c5_secret_redaction (s t : Secret) (hs : s ≠ "") (ht : t ≠ "") :
    secretMarshalYAML "" = none ∧ secretMarshalJSON "" = none ∧
    secretMarshalYAML s = some "<secret>" ∧
    secretMarshalJSON s = some "\"<secret>\"" ∧
    secretMarshalYAML s = secretMarshalYAML t ∧
    secretMarshalJSON s = secretMarshalJSON t := by
  simp [secretMarshalYAML, secretMarshalJSON, hs, ht]

/-- C5 witness: the theorem applied to two concrete non-empty secrets. -/
theorem c5_secret_redaction_witness :
    secretMarshalYAML "" = none ∧ secretMarshalJSON "" = none ∧
    secretMarshalYAML "hunter2" = some "<secret>" ∧
    secretMarshalJSON "hunter2" = some "\"<secret>\"" ∧
    secretMarshalYAML "hunter2" = secretMarshalYAML "x" ∧
    secretMarshalJSON "hunter2" = secretMarshalJSON "x" :=
  c5_secret_redaction "hunter2" "x" (by decide) (by decide)

/-- C6: every failure that satisfies the `net.Error` assertion and answers
true to `Timeout()` is classified retryable by the first check of
`RetryableError`, before the operation-kind switch is ever consulted. -/
theorem c6_timeout_retryable (e : NetError) (h1 : isNetErrorB e = true)
    (h2 : timeoutB e = true) : retryableError e = true := by
  simp [retryableError, h1, h2]

/-- C6 witness: a timed-out dial operation is retryable — the timeout rule
fires before the dial-rejection rule. -/
theorem c6_timeout_retryable_witness :
    isNetErrorB (NetError.opErr "dial" (some Errno.ETIMEDOUT)) = true ∧
    timeoutB (NetError.opErr "dial" (some Errno.ETIMEDOUT)) = true ∧
    retryableError (NetError.opErr "dial" (some Errno.ETIMEDOUT)) = true :=
  ⟨rfl, rfl, c6_timeout_retryable _ rfl rfl⟩

/-- C7: a non-timeout failure carrying an operation-kind tag (necessarily a
`*net.OpError` in the source) is classified not-retryable when the tag is
`"dial"` and retryable when the tag is `"read"`. -/
theorem c7_dial_read (e e2 : NetError) (ht : timeoutB e = false)
    (hop : opKind e = some "dial") (ht2 : timeoutB e2 = false)
    (hop2 : opKind e2 = some "read") :
    retryableError e = false ∧ retryableError e2 = true := by
  constructor
  · cases e with
    | opErr op inner =>
        simp only [opKind, Option.some.injEq] at hop
        subst hop
        simp [retryableError, isNetErrorB, ht]
    | errno er => simp [opKind] at hop
    | generic a b => simp [opKind] at hop
    | nilErr => simp [opKind] at hop
  · cases e2 with
    | opErr op inner =>
        simp only [opKind, Option.some.injEq] at hop2
        subst hop2
        simp [retryableError, isNetErrorB, ht2]
    | errno er => simp [opKind] at hop2
    | generic a b => simp [opKind] at hop2
    | nilErr => simp [opKind] at hop2

/-- C7 witness: the theorem applied to plain dial and read failures. -/
theorem c7_dial_read_witness :
    retryableError (NetError.opErr "dial" none) = false ∧
    retryableError (NetError.opErr "read" none) = true :=
  c7_dial_read _ _ rfl rfl rfl rfl

/-- C8 counterexample: a non-timeout failure tagged with operation-kind
`"other"` whose OS-level error code is `ECONNREFUSED` is classified NOT
retryable, contradicting the claim.  In the source such a failure is a
`*net.OpError`, which the type switch captures in its first case; the
`syscall.Errno` case — the only place `ECONNREFUSED` is consulted — is
unreachable for it, and the function falls through to `return false`. -/
theorem c8_counterexample :
    timeoutB (NetError.opErr "other" (some Errno.ECONNREFUSED)) = false ∧
    opKind (NetError.opErr "other" (some Errno.ECONNREFUSED)) = some "other" ∧
    errCode (NetError.opErr "other" (some Errno.ECONNREFUSED)) =
      some Errno.ECONNREFUSED ∧
    retryableError (NetError.opErr "other" (some Errno.ECONNREFUSED)) = false :=
  ⟨rfl, rfl, rfl, rfl⟩

/-- C8 amended: the connection-refused rule fires only for a failure that
carries no operation-kind tag — a bare `syscall.Errno` equal to
`ECONNREFUSED` is classified retryable, while a non-timeout failure that
carries any tag other than `"dial"`/`"read"` is classified not retryable
even when it wraps `ECONNREFUSED`. -/
theorem c8_amended_bare_errno (op : String) (inner : Option Errno)
    (h1 : op ≠ "dial") (h2 : op ≠ "read")
    (h3 : timeoutB (NetError.opErr op inner) = false) :
    retryableError (NetError.errno Errno.ECONNREFUSED) = true ∧
    retryableError (NetError.opErr op inner) = false := by
  refine ⟨rfl, ?_⟩
  simp [retryableError, isNetErrorB, h3, h1, h2]

/-- C8 amended witness: the theorem applied to the claim's own example
shape, operation-kind `"other"` wrapping `ECONNREFUSED`. -/
theorem c8_amended_bare_errno_witness :
    retryableError (NetError.errno Errno.ECONNREFUSED) = true ∧
    retryableError (NetError.opErr "other" (some Errno.ECONNREFUSED)) = false :=
  c8_amended_bare_errno "other" (some Errno.ECONNREFUSED)
    (by decide) (by decide) rfl

/-- C9: `RetryableError` is total by construction (the embedding is a total
function into `Bool`, as the source has no panicking path: a failed type
assertion with the two-value form and an unmatched type switch are both
safe), and every failure not matched by rules 1–4 — no satisfied timeout
flag, no `"dial"`/`"read"` operation-kind, no `ECONNREFUSED` code — is
classified false, including the nil error, a `"write"` operation-kind and
an `EPIPE` code. -/
theorem c9_default_false (e : NetError)
    (h1 : ¬(isNetErrorB e = true ∧ timeoutB e = true))
    (h2 : opKind e ≠ some "dial") (h3 : opKind e ≠ some "read")
    (h4 : errCode e ≠ some Errno.ECONNREFUSED) :
    retryableError e = false ∧
    retryableError NetError.nilErr = false ∧
    retryableError (NetError.opErr "write" none) = false ∧
    retryableError (NetError.errno Errno.EPIPE) = false ∧
    retryableError (NetError.opErr "other" (some Errno.EPIPE)) = false := by
  refine ⟨?_, rfl, rfl, rfl, rfl⟩
  cases e with
  | opErr op inner =>
      have ht : timeoutB (NetError.opErr op inner) = false := by
        cases h : timeoutB (NetError.opErr op inner)
        · rfl
        · exact absurd ⟨rfl, h⟩ h1
      have hd : op ≠ "dial" := fun hh => h2 (by simp [opKind, hh])
      have hr : op ≠ "read" := fun hh => h3 (by simp [opKind, hh])
      simp [retryableError, isNetErrorB, ht, hd, hr]
  | errno er =>
      have ht : errnoTimeout er = false := by
        cases h : errnoTimeout er
        · rfl
        · exact absurd ⟨rfl, h⟩ h1
      have hc : er ≠ Errno.ECONNREFUSED := fun hh => h4 (by simp [errCode, hh])
      simp [retryableError, isNetErrorB, timeoutB, ht, hc]
  | generic isNet tmo =>
      have hcond : (isNetErrorB (NetError.generic isNet tmo) &&
          timeoutB (NetError.generic isNet tmo)) = false := by
        cases isNet <;> cases tmo <;> simp_all [isNetErrorB, timeoutB]
      simp [retryableError, hcond]
  | nilErr => rfl

/-- C9 witness: the theorem applied to an unknown failure shape (an error
that implements `net.Error` but is neither timed out nor an `OpError` nor
an `Errno`). -/
theorem c9_default_false_witness :
    retryableError (NetError.generic true false) = false ∧
    retryableError NetError.nilErr = false ∧
    retryableError (NetError.opErr "write" none) = false ∧
    retryableError (NetError.errno Errno.EPIPE) = false ∧
    retryableError (NetError.opErr "other" (some Errno.EPIPE)) = false :=
  c9_default_false (NetError.generic true false)
    (by decide) (by decide) (by decide) (by decide)

/-- C10: for a slice argument under any operator not case-insensitively
equal to `"or"` (e.g. `"AND"`), the loop of `Find` overwrites the result on
every iteration and never breaks, so the returned value is exactly the
membership of the LAST element of the slice — not the conjunction over all
elements; and for a plain string argument the operator plays no role: the
result is plain membership. -/
theorem c10_find_last_wins (a l : List String) (op s : String)
    (hl : l ≠ []) (hop : goToLower op ≠ "or") :
    (find a (FindArg.slice l) op = true ↔ l.getLast hl ∈ a) ∧
    (find a (FindArg.str s) op = true ↔ s ∈ a) := by
  constructor
  · show findLoop a op l false = true ↔ _
    rw [findLoop_last a op (beq_eq_false_iff_ne.mpr hop) l hl false]
    exact findStr_iff a _
  · exact findStr_iff a s

/-- C10 witness: with operator `"AND"`, `Find` reports true although the
first slice element is absent — only the last element's membership counts. -/
theorem c10_find_last_wins_witness :
    (find ["alpha", "beta"] (FindArg.slice ["zeta", "beta"]) "AND" = true ↔
      ["zeta", "beta"].getLast (by decide) ∈ ["alpha", "beta"]) ∧
    (find ["alpha", "beta"] (FindArg.str "zeta") "AND" = true ↔
      "zeta" ∈ ["alpha", "beta"]) :=
  c10_find_last_wins ["alpha", "beta"] ["zeta", "beta"] "AND" "zeta"
    (by decide) (by decide)
